import Mathlib

/-!
Verification of the AkiraPlayer progress-synchronization engine, playlist
navigator, restore effect and thumbnail cue index, as a shallow embedding of
the TypeScript sources (`src/lib/progress.ts`, `src/lib/vtt-thumbnails.ts`,
`src/player/AkiraPlayer.tsx`).

Modelling conventions:
* JavaScript numbers that may be `NaN`/`Infinity` are modelled by `JNum`
  (finite rationals plus the three non-finite values); player-level float
  arithmetic is modelled over `ℚ`.
* The remote `watch_progress` table is a `List WatchProgressRow`; timestamps
  (`updated_at`, produced by `new Date().toISOString()`) are modelled as `Nat`.
* The `NEAR_END_SECONDS` configuration constant is a parameter `N` of the
  definitions; the source falls back to `45` when the config lacks it
  (`CONFIG?.NEAR_END_SECONDS ?? 45`), so concrete instances use `45`.
* Failure-free store semantics ("Model A") is used for functional claims;
  the error/retry control flow of `saveMovieProgress` / `saveEpisodeProgress`
  is modelled separately as trace-producing functions driven by an oracle of
  primitive-call outcomes ("Model B").
-/

namespace Akira

/-- A JavaScript number: either finite (modelled as a rational) or one of
`NaN`, `+Infinity`, `-Infinity`. -/
inductive JNum where
  | nan
  | posInf
  | negInf
  | fin (q : ℚ)
deriving DecidableEq, Repr

/-- Whether a `JNum` is finite (`Number.isFinite`). -/
def JNum.isFinite : JNum → Bool
  | .fin _ => true
  | _ => false

/-- `toInt` from `progress.ts`: `Number(value)`; non-finite values fall back
to `0`; otherwise `Math.max(0, Math.floor(n))`. -/
def toInt : JNum → Nat
  | .fin q => (max 0 ⌊q⌋).toNat
  | _ => 0

/-- `isUuidLike` from `progress.ts`: a string of length at least 8. -/
def isUuidLike (v : String) : Bool :=
  8 ≤ v.length

/-- JavaScript truthiness of a `string | null | undefined` value: truthy
exactly when it is a non-empty string. -/
def truthy : Option String → Bool
  | none => false
  | some s => !s.isEmpty

/-- A row of the `watch_progress` table (`WatchProgressRow` in
`progress.ts`); `duration_seconds` is `none` when the optional column is
absent or null. -/
structure WatchProgressRow where
  user_id : String
  movie_id : String
  episode_id : Option String
  progress_seconds : Nat
  updated_at : Nat
  duration_seconds : Option Nat
deriving DecidableEq, Repr

/-- The row shape returned to the player (`AkiraProgressRowShape`). -/
structure AkiraProgressRowShape where
  position_seconds : Nat
  duration_seconds : Nat
  updated_at : Option Nat
  movie_id : String
  episode_id : Option String
deriving DecidableEq, Repr

/-- The store state: the rows of the `watch_progress` table. -/
abbrev Store := List WatchProgressRow

/-- Arguments of `loadProgress` (`LoadProgressArgs`). -/
structure LoadProgressArgs where
  contentId : String
  seasonId : Option String
  episodeId : Option String
deriving DecidableEq, Repr

/-- Arguments of `saveProgress` (`SaveProgressArgs`). -/
structure SaveProgressArgs where
  contentId : String
  seasonId : Option String
  episodeId : Option String
  positionSeconds : JNum
  durationSeconds : JNum
deriving DecidableEq, Repr

/-- The exact-match filter used by `selectExactProgressRow` and
`deleteWatchProgressRow`: `user_id` and `movie_id` must be equal, and the
`episode_id` filter is `eq episode_id` when the argument is truthy (a
non-empty string) and `episode_id IS NULL` otherwise. -/
def matchesIdentity (userId movieId : String) (episodeId : Option String)
    (r : WatchProgressRow) : Bool :=
  r.user_id == userId && r.movie_id == movieId &&
    (if truthy episodeId then r.episode_id == episodeId else r.episode_id == none)

/-- One step of scanning for the most recently updated row: keep the row
with the larger `updated_at`, the earlier row winning ties. -/
def pickLatestStep (acc : Option WatchProgressRow) (r : WatchProgressRow) :
    Option WatchProgressRow :=
  match acc with
  | none => some r
  | some b => if b.updated_at < r.updated_at then some r else some b

/-- The `order by updated_at descending, limit 1` step: among the filtered
rows, the first row carrying the maximal `updated_at`. -/
def pickLatest (rows : List WatchProgressRow) : Option WatchProgressRow :=
  rows.foldl pickLatestStep none

/-- `selectExactProgressRow`: filter the table by the exact identity and
return the most recently updated matching row, if any.  (The
`withDuration` select-clause variants only change which columns are
projected, not which row is selected, so the failure-free model ignores
them.) -/
def selectExactProgressRow (store : Store) (userId movieId : String)
    (episodeId : Option String) : Option WatchProgressRow :=
  pickLatest (store.filter (matchesIdentity userId movieId episodeId))

/-- `normalizeLoadedRow`: `null` stays `null`; otherwise the row is coerced
to the player shape, a missing `duration_seconds` becoming `0`. -/
def normalizeLoadedRow : Option WatchProgressRow → Option AkiraProgressRowShape
  | none => none
  | some row =>
    some { position_seconds := row.progress_seconds
           duration_seconds := row.duration_seconds.getD 0
           updated_at := some row.updated_at
           movie_id := row.movie_id
           episode_id := row.episode_id }

/-- `loadProgress` (failure-free model): reject a non-uuid-like `contentId`,
reject when no authenticated user is available, otherwise select the exact
row and normalize it.  `user` is the result of `getCurrentUserId`. -/
def loadProgress (user : Option String) (store : Store)
    (args : LoadProgressArgs) : Option AkiraProgressRowShape :=
  if !isUuidLike args.contentId then none
  else
    match user with
    | none => none
    | some userId =>
      normalizeLoadedRow (selectExactProgressRow store userId args.contentId args.episodeId)

/-- `TRY_DURATION_COLUMN` from `progress.ts`: a compile-time constant, never
mutated at runtime. -/
def TRY_DURATION_COLUMN : Bool := true

/-- `isNearEnd`: false when the (already truncated) duration is zero,
otherwise true when `dur - pos` (JavaScript integer subtraction, hence `Int`)
is at most the near-end threshold `N`. -/
def isNearEnd (N : Nat) (pos dur : Nat) : Bool :=
  if dur = 0 then false
  else (dur : Int) - (pos : Int) ≤ (N : Int)

/-- `deleteWatchProgressRow`: remove exactly the rows matching the identity
(`episode_id IS NULL` for a movie / empty episode argument, `episode_id = e`
for a truthy episode argument). -/
def deleteWatchProgressRow (userId movieId : String) (episodeId : Option String)
    (store : Store) : Store :=
  store.filter (fun r => !matchesIdentity userId movieId episodeId r)

/-- The store operations a `saveProgress` call can issue, recorded as a
trace so that "performs no write or delete" is expressible. -/
inductive StoreAct where
  | delete
  | updateMovie
  | insertMovie
  | upsertEpisode
deriving DecidableEq, Repr

/-- `updateMovieRow` (failure-free model): set `progress_seconds` and
`updated_at` (and `duration_seconds` when the payload carries it) on every
row with this `user_id`, this `movie_id` and `episode_id IS NULL`; report
whether at least one row matched. -/
def updateMovieRow (userId movieId : String) (pos dur : Nat)
    (withDuration : Bool) (now : Nat) (store : Store) : Store × Bool :=
  (store.map (fun r =>
      if matchesIdentity userId movieId none r then
        { r with
          progress_seconds := pos
          updated_at := now
          duration_seconds := if withDuration then some dur else r.duration_seconds }
      else r),
   store.any (matchesIdentity userId movieId none))

/-- `insertMovieRow` (failure-free model): append a fresh null-episode row;
a payload without the duration column leaves that column null. -/
def insertMovieRow (userId movieId : String) (pos dur : Nat)
    (withDuration : Bool) (now : Nat) (store : Store) : Store :=
  store ++ [{ user_id := userId
              movie_id := movieId
              episode_id := none
              progress_seconds := pos
              updated_at := now
              duration_seconds := if withDuration then some dur else none }]

/-- `saveMovieProgress` (failure-free model): with `TRY_DURATION_COLUMN`
set, first try an update of the null-episode row keyed on
`(user_id, movie_id, episode_id IS NULL)`; only when no row was updated,
insert one.  The error-handling branches (missing duration column,
duplicate-key retry) are modelled by `saveMovieProgressFlow`. -/
def saveMovieProgress (userId movieId : String) (pos dur : Nat) (now : Nat)
    (store : Store) : Store × List StoreAct :=
  if TRY_DURATION_COLUMN then
    let u := updateMovieRow userId movieId pos dur true now store
    if u.2 then (u.1, [.updateMovie])
    else (insertMovieRow userId movieId pos dur true now u.1, [.updateMovie, .insertMovie])
  else
    let u := updateMovieRow userId movieId pos dur false now store
    if u.2 then (u.1, [.updateMovie])
    else (insertMovieRow userId movieId pos dur false now u.1, [.updateMovie, .insertMovie])

/-- `saveEpisodeProgress` (failure-free model): a conflict-safe upsert keyed
on `(user_id, movie_id, episode_id)`: update the row with exactly that
triple when one exists, otherwise insert it. -/
def saveEpisodeProgress (userId movieId episodeId : String) (pos dur : Nat)
    (now : Nat) (store : Store) : Store × List StoreAct :=
  let hit := store.any (fun r =>
    r.user_id == userId && r.movie_id == movieId && r.episode_id == some episodeId)
  if hit then
    (store.map (fun r =>
        if r.user_id == userId && r.movie_id == movieId && r.episode_id == some episodeId then
          { r with
            progress_seconds := pos
            updated_at := now
            duration_seconds := some dur }
        else r),
     [.upsertEpisode])
  else
    (store ++ [{ user_id := userId
                 movie_id := movieId
                 episode_id := some episodeId
                 progress_seconds := pos
                 updated_at := now
                 duration_seconds := some dur }],
     [.upsertEpisode])

/-- `saveProgress` (failure-free model).  Guards: non-uuid-like `contentId`,
missing user, or zero truncated duration make the call a no-op issuing no
store operation.  A near-end position deletes exactly the matching row.
Otherwise a truthy, uuid-like `episodeId` routes to the episode upsert and
anything else to the movie update-else-insert path. -/
def saveProgress (N : Nat) (user : Option String) (now : Nat) (store : Store)
    (args : SaveProgressArgs) : Store × List StoreAct :=
  if !isUuidLike args.contentId then (store, [])
  else
    match user with
    | none => (store, [])
    | some userId =>
      let pos := toInt args.positionSeconds
      let dur := toInt args.durationSeconds
      if dur = 0 then (store, [])
      else if isNearEnd N pos dur then
        (deleteWatchProgressRow userId args.contentId args.episodeId store, [.delete])
      else
        match args.episodeId with
        | some e =>
          if truthy (some e) && isUuidLike e then
            saveEpisodeProgress userId args.contentId e pos dur now store
          else
            saveMovieProgress userId args.contentId pos dur now store
        | none =>
          saveMovieProgress userId args.contentId pos dur now store

/-! ### Model B: error/retry control flow of the save paths

The store primitives (`update`, `insert`, `upsert`) are driven by an oracle
list of outcomes, consumed in call order; the functions return the trace of
primitive calls they issued and either success or the error they threw. -/

/-- The two error classifications the source tests on a caught error:
`isMissingDurationColumnError` (message mentions the duration column) and
a uniqueness/duplicate-key violation (message mentions `duplicate key` or
`unique`). -/
structure PgError where
  missingDurationColumn : Bool
  uniqueViolation : Bool
deriving DecidableEq, Repr

/-- Outcome of one store primitive call: success (with, for an update,
whether a row matched) or an error. -/
inductive Outcome where
  | ok (updated : Bool)
  | err (e : PgError)
deriving DecidableEq, Repr

/-- One primitive store call, with or without the duration column:
update / insert the movie row, upsert the episode row. -/
inductive Act where
  | updW | insW | updWO | insWO | upsW | upsWO
deriving DecidableEq, Repr

/-- Result of a save flow: the primitive calls issued, and `none` on
success or `some e` when the error `e` propagated out. -/
structure FlowResult where
  trace : List Act
  thrown : Option PgError
deriving DecidableEq, Repr

/-- Consume the next oracle outcome; an exhausted oracle defaults to a
successful call that matched a row. -/
def takeO : List Outcome → Outcome × List Outcome
  | [] => (.ok true, [])
  | o :: rest => (o, rest)

/-- The fallback section of `saveMovieProgress` (after the
missing-duration-column warning): update without the column; if no row was
updated, insert without it, and on a uniqueness violation of that insert
retry the update once (whose own error, if any, propagates). -/
def movieFallback (env : List Outcome) (tr : List Act) : FlowResult :=
  let s1 := takeO env
  match s1.1 with
  | .err e => ⟨tr ++ [.updWO], some e⟩
  | .ok true => ⟨tr ++ [.updWO], none⟩
  | .ok false =>
    let s2 := takeO s1.2
    match s2.1 with
    | .ok _ => ⟨tr ++ [.updWO, .insWO], none⟩
    | .err e2 =>
      if e2.uniqueViolation then
        let s3 := takeO s2.2
        match s3.1 with
        | .ok _ => ⟨tr ++ [.updWO, .insWO, .updWO], none⟩
        | .err e3 => ⟨tr ++ [.updWO, .insWO, .updWO], some e3⟩
      else ⟨tr ++ [.updWO, .insWO], some e2⟩

/-- The catch block of `saveMovieProgress`'s first try: a non-missing-column
error that is a uniqueness violation triggers exactly one retry of the
with-duration update and, if that retry also fails, rethrows the original
error; any other non-missing-column error is rethrown; a missing-column
error falls through to the without-duration fallback. -/
def movieCatch (e : PgError) (env : List Outcome) (tr : List Act) : FlowResult :=
  if !e.missingDurationColumn then
    if e.uniqueViolation then
      let s := takeO env
      match s.1 with
      | .ok _ => ⟨tr ++ [.updW], none⟩
      | .err _ => ⟨tr ++ [.updW], some e⟩
    else ⟨tr, some e⟩
  else movieFallback env tr

/-- `saveMovieProgress`, control-flow model: with `TRY_DURATION_COLUMN`
set, try the with-duration update; when it reports no matching row, try the
with-duration insert; errors of either go to the catch block. -/
def saveMovieProgressFlow (env : List Outcome) : FlowResult :=
  if TRY_DURATION_COLUMN then
    let s1 := takeO env
    match s1.1 with
    | .ok true => ⟨[.updW], none⟩
    | .ok false =>
      let s2 := takeO s1.2
      match s2.1 with
      | .ok _ => ⟨[.updW, .insW], none⟩
      | .err e => movieCatch e s2.2 [.updW, .insW]
    | .err e => movieCatch e s1.2 [.updW]
  else movieFallback env []

/-- `saveEpisodeProgress`, control-flow model: with `TRY_DURATION_COLUMN`
set, upsert with the duration column; on a missing-column error retry the
same upsert without the column; any other error is thrown. -/
def saveEpisodeProgressFlow (env : List Outcome) : FlowResult :=
  if TRY_DURATION_COLUMN then
    let s1 := takeO env
    match s1.1 with
    | .ok _ => ⟨[.upsW], none⟩
    | .err e =>
      if !e.missingDurationColumn then ⟨[.upsW], some e⟩
      else
        let s2 := takeO s1.2
        match s2.1 with
        | .ok _ => ⟨[.upsW, .upsWO], none⟩
        | .err e2 => ⟨[.upsW, .upsWO], some e2⟩
  else
    let s1 := takeO env
    match s1.1 with
    | .ok _ => ⟨[.upsWO], none⟩
    | .err e => ⟨[.upsWO], some e⟩

/-! ### Episode Playlist Navigator (`AkiraPlayer.tsx`) -/

/-- A playlist entry (`EpisodeItem`): identifier plus optional season and
episode numbers. -/
structure EpisodeItem where
  id : String
  seasonNumber : Option Int
  episodeNumber : Option Int
deriving DecidableEq, Repr

/-- The sort comparator of `orderedEpisodes`: season number (missing
treated as `1`), then episode number (missing treated as `0`), then the
identifier string (`String(a.id).localeCompare(String(b.id))`, modelled as
Lean's string comparison — a deterministic total tie-break, as the claim
requires). -/
def episodeCompare (a b : EpisodeItem) : Ordering :=
  let sa := a.seasonNumber.getD 1
  let sb := b.seasonNumber.getD 1
  if sa ≠ sb then (if sa < sb then .lt else .gt)
  else
    let ea := a.episodeNumber.getD 0
    let eb := b.episodeNumber.getD 0
    if ea ≠ eb then (if ea < eb then .lt else .gt)
    else compare a.id b.id

/-- The comparator as a total preorder, for sorting: `a` may come before
`b` exactly when the comparator does not order `a` strictly after `b`. -/
def episodeLe (a b : EpisodeItem) : Prop :=
  episodeCompare a b ≠ .gt

instance : DecidableRel episodeLe := fun a b =>
  inferInstanceAs (Decidable (episodeCompare a b ≠ .gt))

/-- `orderedEpisodes`: the playlist stably sorted by `episodeCompare`
(JavaScript `Array.prototype.sort` is stable and, for a consistent
comparator, produces the unique stable order; insertion sort computes the
same list). -/
def orderedEpisodes (episodes : List EpisodeItem) : List EpisodeItem :=
  episodes.insertionSort episodeLe

/-- `currentEpisodeIndexInPlaylist`: `-1` when there is no truthy current
episode id (`if (!episodeId) return -1` — null, undefined and the empty
string alike); otherwise the index of the current episode's id in the
ordered playlist, `-1` when it is not found. -/
def currentEpisodeIndexInPlaylist (ordered : List EpisodeItem)
    (episodeId : Option String) : Int :=
  if !truthy episodeId then -1
  else
    match episodeId with
    | some eid =>
      match ordered.findIdx? (fun ep => ep.id == eid) with
      | some i => (i : Int)
      | none => -1
    | none => -1

/-- `nextEpisodeInPlaylist`: `null` when the current episode is absent,
otherwise the entry at the following index (out of range gives `null`). -/
def nextEpisodeInPlaylist (ordered : List EpisodeItem)
    (episodeId : Option String) : Option EpisodeItem :=
  let i := currentEpisodeIndexInPlaylist ordered episodeId
  if i < 0 then none
  else ordered.get? (i + 1).toNat

/-! ### Continue-watching restore decision (`AkiraPlayer.tsx`) -/

/-- The decision taken by the Continue Watching load effect on a loaded
record: compute `nearEnd` from the record's own stored position and
duration against the threshold `N`; when not near end, seek exactly when
the position is strictly positive and strictly below
`max 0 (duration - 3)` (the player's duration, a float).  Returns the seek
target, or `none` when no seek happens. -/
def restoreDecision (N : Nat) (duration : ℚ) (row : AkiraProgressRowShape) :
    Option Nat :=
  let pos := row.position_seconds
  let total := row.duration_seconds
  let nearEnd := decide (0 < total) && decide ((total : Int) - (pos : Int) ≤ (N : Int))
  if nearEnd then none
  else if 0 < pos ∧ (pos : ℚ) < max 0 (duration - 3) then some pos
  else none

/-- The load effect around the decision: a missing record seeks nowhere. -/
def restoreEffect (N : Nat) (duration : ℚ)
    (row : Option AkiraProgressRowShape) : Option Nat :=
  match row with
  | none => none
  | some r => restoreDecision N duration r

/-! ### Thumbnail Cue Index (`vtt-thumbnails.ts`) -/

/-- A thumbnail cue: `[start, end)` interval, image URL and optional sprite
sub-rectangle. -/
structure ThumbnailCue where
  start : ℚ
  «end» : ℚ
  url : String
  xywh : Option (Nat × Nat × Nat × Nat)
deriving DecidableEq, Repr

/-- `findThumbnailCue`: the first cue whose half-open interval
`[start, end)` contains the timestamp; when no cue contains it, the last
cue of a non-empty list, and `null` for the empty list. -/
def findThumbnailCue (cues : List ThumbnailCue) (timeSec : ℚ) :
    Option ThumbnailCue :=
  match cues.find? (fun cue => decide (cue.start ≤ timeSec) && decide (timeSec < cue.«end»)) with
  | some cue => some cue
  | none => cues.getLast?

/-- Number of rows of the store for a given user and content with
`episode_id IS NULL` (the movie rows of `(user, contentId)`). -/
def countNullRows (userId movieId : String) (store : Store) : Nat :=
  (store.filter (matchesIdentity userId movieId none)).length

end Akira

namespace Akira

/-! ## Theorems -/

/-- `find?` on the prefix of non-matching cues skips to the rest. -/
theorem find?_append_of_not {p : ThumbnailCue → Bool} :
    ∀ (l1 l2 : List ThumbnailCue), (∀ c ∈ l1, p c = false) →
      (l1 ++ l2).find? p = l2.find? p := by
  intro l1 l2 h
  induction l1 with
  | nil => simp
  | cons a t ih =>
    have ha : p a = false := h a (List.mem_cons_self a t)
    simp only [List.cons_append, List.find?]
    rw [ha]
    exact ih fun c hc => h c (List.mem_cons_of_mem a hc)

/-- Claim C7: for every cue list and timestamp, thumbnail lookup returns the
first cue whose half-open interval `[start, end)` contains the timestamp, or
the last cue if the timestamp exceeds every interval, or no result if the
list is empty; in particular for cues `[(0,5,url1),(5,12,url2)]`:
`lookup 4.9 = url1`, `lookup 5.0 = url2`, `lookup 100 = url2`, and lookup on
an empty index yields none. -/
theorem C7_cue_lookup :
    (∀ t : ℚ, findThumbnailCue [] t = none)
    ∧ (∀ (cues1 cues2 : List ThumbnailCue) (c : ThumbnailCue) (t : ℚ),
        (∀ c1 ∈ cues1, ¬(c1.start ≤ t ∧ t < c1.«end»)) →
        c.start ≤ t → t < c.«end» →
        findThumbnailCue (cues1 ++ c :: cues2) t = some c)
    ∧ (∀ (cues : List ThumbnailCue) (t : ℚ), cues ≠ [] →
        (∀ c ∈ cues, c.«end» ≤ t) →
        findThumbnailCue cues t = cues.getLast?)
    ∧ findThumbnailCue [⟨0, 5, "url1", none⟩, ⟨5, 12, "url2", none⟩] (49/10)
        = some ⟨0, 5, "url1", none⟩
    ∧ findThumbnailCue [⟨0, 5, "url1", none⟩, ⟨5, 12, "url2", none⟩] 5
        = some ⟨5, 12, "url2", none⟩
    ∧ findThumbnailCue [⟨0, 5, "url1", none⟩, ⟨5, 12, "url2", none⟩] 100
        = some ⟨5, 12, "url2", none⟩ := by
  refine ⟨fun t => rfl, ?_, ?_, by norm_num [findThumbnailCue, List.find?],
    by norm_num [findThumbnailCue, List.find?], by norm_num [findThumbnailCue, List.find?]⟩
  · intro cues1 cues2 c t h1 hs he
    unfold findThumbnailCue
    rw [find?_append_of_not cues1 (c :: cues2) ?side]
    · simp only [List.find?]
      have : (decide (c.start ≤ t) && decide (t < c.«end»)) = true := by
        simp [hs, he]
      rw [this]
    case side =>
      intro c1 hc1
      have := h1 c1 hc1
      simp only [Bool.and_eq_false_iff, decide_eq_false_iff_not]
      by_cases h : c1.start ≤ t
      · exact Or.inr (fun hl => this ⟨h, hl⟩)
      · exact Or.inl h
  · intro cues t hne h
    unfold findThumbnailCue
    have : cues.find? (fun cue => decide (cue.start ≤ t) && decide (t < cue.«end»)) = none := by
      rw [List.find?_eq_none]
      intro c hc
      simp only [Bool.and_eq_true, decide_eq_true_eq, not_and]
      intro _ hlt
      exact absurd (h c hc) (not_le.mpr hlt)
    rw [this]

/-- Witness for C7 at a concrete input discharging the hypotheses. -/
theorem C7_cue_lookup_witness :
    findThumbnailCue [⟨0, 5, "url1", none⟩, ⟨5, 12, "url2", none⟩] 7
        = some ⟨5, 12, "url2", none⟩
    ∧ findThumbnailCue [⟨0, 5, "url1", none⟩, ⟨5, 12, "url2", none⟩] 100
        = some ⟨5, 12, "url2", none⟩ := by
  constructor
  · refine C7_cue_lookup.2.1 [⟨0, 5, "url1", none⟩] [] ⟨5, 12, "url2", none⟩ 7
      ?_ (by norm_num) (by norm_num)
    simp only [List.mem_singleton]
    rintro c1 rfl
    norm_num
  · have hlast : ([⟨0, 5, "url1", none⟩, ⟨5, 12, "url2", none⟩] :
        List ThumbnailCue).getLast? = some ⟨5, 12, "url2", none⟩ := rfl
    have h100 := C7_cue_lookup.2.2.1 [⟨0, 5, "url1", none⟩, ⟨5, 12, "url2", none⟩] 100
      (by simp) ?_
    · rw [h100, hlast]
    · intro c hc
      simp only [List.mem_cons, List.mem_singleton] at hc
      rcases hc with rfl | hc
      · norm_num
      · rcases hc with rfl | hc
        · norm_num
        · exact absurd hc (List.not_mem_nil c)

/-- Claim C10 (implicit): for every non-empty cue list, thumbnail lookup
returns the LAST cue for any timestamp not contained in any cue's
`[start, end)` interval — including a timestamp smaller than the first
cue's start or one falling in a gap between cues; the empty list is the
only input yielding no result. -/
theorem C10_last_cue_fallback :
    (∀ (cues : List ThumbnailCue) (t : ℚ), cues ≠ [] →
        (∀ c ∈ cues, ¬(c.start ≤ t ∧ t < c.«end»)) →
        findThumbnailCue cues t = cues.getLast? ∧
        ∃ c, findThumbnailCue cues t = some c)
    ∧ (∀ (cues : List ThumbnailCue) (t : ℚ),
        findThumbnailCue cues t = none ↔ cues = [])
    ∧ findThumbnailCue [⟨10, 20, "u1", none⟩] 5 = some ⟨10, 20, "u1", none⟩
    ∧ findThumbnailCue [⟨0, 5, "u1", none⟩, ⟨7, 9, "u2", none⟩] 6
        = some ⟨7, 9, "u2", none⟩ := by
  have hnone : ∀ (cues : List ThumbnailCue) (t : ℚ),
      (∀ c ∈ cues, ¬(c.start ≤ t ∧ t < c.«end»)) →
      cues.find? (fun cue => decide (cue.start ≤ t) && decide (t < cue.«end»)) = none := by
    intro cues t h
    rw [List.find?_eq_none]
    intro c hc
    simp only [Bool.and_eq_true, decide_eq_true_eq]
    exact fun hcontra => h c hc ⟨hcontra.1, hcontra.2⟩
  refine ⟨?_, ?_, by norm_num [findThumbnailCue, List.find?],
    by norm_num [findThumbnailCue, List.find?]⟩
  · intro cues t hne h
    have heq : findThumbnailCue cues t = cues.getLast? := by
      unfold findThumbnailCue
      rw [hnone cues t h]
    refine ⟨heq, ?_⟩
    rw [heq]
    obtain ⟨c, hc⟩ := Option.isSome_iff_exists.mp
      (List.getLast?_isSome.mpr hne)
    exact ⟨c, hc⟩
  · intro cues t
    constructor
    · intro h
      unfold findThumbnailCue at h
      cases hf : cues.find? (fun cue => decide (cue.start ≤ t) && decide (t < cue.«end»)) with
      | some c => rw [hf] at h; exact absurd h (by simp)
      | none =>
        rw [hf] at h
        exact List.getLast?_eq_none_iff.mp h
    · rintro rfl
      rfl

/-- Witness for C10 at a concrete input discharging the hypotheses. -/
theorem C10_last_cue_fallback_witness :
    findThumbnailCue [⟨3, 4, "w1", none⟩, ⟨6, 8, "w2", none⟩] 5
      = ([⟨3, 4, "w1", none⟩, ⟨6, 8, "w2", none⟩] : List ThumbnailCue).getLast? := by
  refine (C10_last_cue_fallback.1 [⟨3, 4, "w1", none⟩, ⟨6, 8, "w2", none⟩] 5
    (by simp) ?_).1
  intro c hc
  simp only [List.mem_cons, List.mem_singleton] at hc
  rcases hc with rfl | hc
  · norm_num
  · rcases hc with rfl | hc
    · norm_num
    · exact absurd hc (List.not_mem_nil c)

/-- A non-finite JavaScript number truncates to `0`. -/
theorem toInt_eq_zero_of_not_finite (x : JNum) (h : x.isFinite = false) :
    toInt x = 0 := by
  cases x with
  | fin q => simp [JNum.isFinite] at h
  | nan => rfl
  | posInf => rfl
  | negInf => rfl

/-- Claim C8: `saveProgress` is a silent no-op (it performs no store write
or delete and returns normally) whenever its precondition fails: the
duration is not finite or ≤ 0 after coercion (truncation to a non-negative
integer), the content identifier is not a valid key, or no authenticated
principal can be obtained. -/
theorem C8_save_noop (N : Nat) (user : Option String) (now : Nat)
    (store : Store) (args : SaveProgressArgs)
    (h : isUuidLike args.contentId = false ∨ user = none ∨
         args.durationSeconds.isFinite = false ∨ toInt args.durationSeconds = 0) :
    saveProgress N user now store args = (store, []) := by
  unfold saveProgress
  by_cases hc : isUuidLike args.contentId
  · simp only [hc, Bool.not_true, Bool.false_eq_true, if_false]
    cases user with
    | none => rfl
    | some uid =>
      have hdur : toInt args.durationSeconds = 0 := by
        rcases h with h | h | h | h
        · rw [hc] at h; cases h
        · cases h
        · exact toInt_eq_zero_of_not_finite _ h
        · exact h
      simp [hdur]
  · simp [hc]

/-- Witness for C8: a save with a `NaN` duration writes and deletes
nothing. -/
theorem C8_save_noop_witness :
    saveProgress 45 (some "user0001") 7
      [⟨"user0001", "movie001", none, 10, 5, some 100⟩]
      ⟨"movie001", none, none, .fin 10, .nan⟩
    = ([⟨"user0001", "movie001", none, 10, 5, some 100⟩], []) :=
  C8_save_noop 45 (some "user0001") 7 _ _ (Or.inr (Or.inr (Or.inl rfl)))

/-- Claim C9: the `seasonId` argument never influences persistence: two
`loadProgress` (or `saveProgress`) calls whose arguments differ only in
`seasonId` read, write and delete the same rows and return the same
result — `seasonId` is not part of the persistence key of any
operation. -/
theorem C9_seasonId_irrelevant (N : Nat) (user : Option String) (now : Nat)
    (store : Store) (c : String) (sid1 sid2 e : Option String) (p d : JNum) :
    loadProgress user store ⟨c, sid1, e⟩ = loadProgress user store ⟨c, sid2, e⟩
    ∧ saveProgress N user now store ⟨c, sid1, e, p, d⟩
        = saveProgress N user now store ⟨c, sid2, e, p, d⟩ :=
  ⟨rfl, rfl⟩

/-- The `foldl` step of `pickLatest` returns an element of the list (or the
initial accumulator) whose `updated_at` dominates the list and the
accumulator. -/
theorem pickLatest_foldl_spec (l : List WatchProgressRow) :
    ∀ (acc : Option WatchProgressRow) (b : WatchProgressRow),
      l.foldl pickLatestStep acc = some b →
      (acc = some b ∨ b ∈ l)
      ∧ (∀ x ∈ l, x.updated_at ≤ b.updated_at)
      ∧ (∀ a, acc = some a → a.updated_at ≤ b.updated_at) := by
  induction l with
  | nil =>
    intro acc b h
    simp only [List.foldl_nil] at h
    exact ⟨Or.inl h, by simp, fun a ha => by rw [ha] at h; cases h; exact le_refl _⟩
  | cons r t ih =>
    intro acc b h
    simp only [List.foldl_cons] at h
    cases acc with
    | none =>
      rw [show pickLatestStep none r = some r from rfl] at h
      obtain ⟨hmem, hmax, hacc⟩ := ih (some r) b h
      have hrb : r.updated_at ≤ b.updated_at := hacc r rfl
      refine ⟨?_, ?_, ?_⟩
      · rcases hmem with hm | hm
        · injection hm with hm
          exact Or.inr (hm ▸ List.mem_cons_self r t)
        · exact Or.inr (List.mem_cons_of_mem r hm)
      · intro x hx
        rcases List.mem_cons.mp hx with rfl | hx
        · exact hrb
        · exact hmax x hx
      · intro a ha
        cases ha
    | some a0 =>
      rw [show pickLatestStep (some a0) r
            = if a0.updated_at < r.updated_at then some r else some a0 from rfl] at h
      by_cases hlt : a0.updated_at < r.updated_at
      · rw [if_pos hlt] at h
        obtain ⟨hmem, hmax, hacc⟩ := ih (some r) b h
        have hrb : r.updated_at ≤ b.updated_at := hacc r rfl
        refine ⟨?_, ?_, ?_⟩
        · rcases hmem with hm | hm
          · injection hm with hm
            exact Or.inr (hm ▸ List.mem_cons_self r t)
          · exact Or.inr (List.mem_cons_of_mem r hm)
        · intro x hx
          rcases List.mem_cons.mp hx with rfl | hx
          · exact hrb
          · exact hmax x hx
        · intro a ha
          cases ha
          exact le_trans (le_of_lt hlt) hrb
      · rw [if_neg hlt] at h
        obtain ⟨hmem, hmax, hacc⟩ := ih (some a0) b h
        have hab : a0.updated_at ≤ b.updated_at := hacc a0 rfl
        refine ⟨?_, ?_, ?_⟩
        · rcases hmem with hm | hm
          · exact Or.inl hm
          · exact Or.inr (List.mem_cons_of_mem r hm)
        · intro x hx
          rcases List.mem_cons.mp hx with rfl | hx
          · exact le_trans (not_lt.mp hlt) hab
          · exact hmax x hx
        · intro a ha
          cases ha
          exact hab

/-- `pickLatest` returns a member of the list whose `updated_at` is
maximal. -/
theorem pickLatest_spec (l : List WatchProgressRow) (b : WatchProgressRow)
    (h : pickLatest l = some b) :
    b ∈ l ∧ ∀ x ∈ l, x.updated_at ≤ b.updated_at := by
  obtain ⟨hmem, hmax, _⟩ := pickLatest_foldl_spec l none b h
  rcases hmem with hm | hm
  · cases hm
  · exact ⟨hm, hmax⟩

/-- Claim C1, amended: every record returned by `loadProgress` comes from a
store row matching the requested identity under the code's matching rule —
`episode_id IS NULL` when the requested `episodeId` is null *or the empty
string*, and `episode_id` exactly equal when it is a non-empty string — and
that row's `updated_at` dominates every matching row; `loadProgress` never
falls back to a record of a different episode under the same `contentId`. -/
theorem C1_exact_match (uid c : String) (sid e : Option String)
    (store : Store) (r : AkiraProgressRowShape)
    (h : loadProgress (some uid) store ⟨c, sid, e⟩ = some r) :
    (∃ row, row ∈ store ∧ matchesIdentity uid c e row = true
        ∧ normalizeLoadedRow (some row) = some r
        ∧ ∀ row2 ∈ store, matchesIdentity uid c e row2 = true →
            row2.updated_at ≤ row.updated_at)
    ∧ (∀ s, e = some s → s.isEmpty = false → r.episode_id = some s)
    ∧ ((e = none ∨ e = some "") → r.episode_id = none) := by
  unfold loadProgress at h
  by_cases hc : isUuidLike c
  · simp only [hc, Bool.not_true, Bool.false_eq_true, if_false] at h
    cases hrow : selectExactProgressRow store uid c e with
    | none => rw [hrow] at h; cases h
    | some row =>
      rw [hrow] at h
      obtain ⟨hmem, hmax⟩ := pickLatest_spec _ row hrow
      have hmem2 := List.mem_filter.mp hmem
      have hepr : r.episode_id = row.episode_id := by
        cases h
        rfl
      have hmatch : matchesIdentity uid c e row = true := hmem2.2
      refine ⟨⟨row, hmem2.1, hmatch, h, ?_⟩, ?_, ?_⟩
      · intro row2 hrow2 hm2
        exact hmax row2 (List.mem_filter.mpr ⟨hrow2, hm2⟩)
      · intro s hse hsne
        subst hse
        have htr : truthy (some s) = true := by simp [truthy, hsne]
        unfold matchesIdentity at hmatch
        rw [htr] at hmatch
        simp only [if_true, Bool.and_eq_true, beq_iff_eq] at hmatch
        rw [hepr, hmatch.2]
      · intro hnull
        have htr : truthy e = false := by
          rcases hnull with rfl | rfl
          · rfl
          · rfl
        unfold matchesIdentity at hmatch
        rw [htr] at hmatch
        simp only [Bool.false_eq_true, if_false, Bool.and_eq_true, beq_iff_eq] at hmatch
        rw [hepr, hmatch.2]
  · simp [hc] at h

/-- Witness for C1 (amended) at a concrete episode identity. -/
theorem C1_exact_match_witness :
    (⟨33, 200, some 9, "movie001", some "epsd0001"⟩ :
      AkiraProgressRowShape).episode_id = some "epsd0001" :=
  (C1_exact_match "user0001" "movie001" none (some "epsd0001")
      [⟨"user0001", "movie001", some "epsd0001", 33, 9, some 200⟩]
      ⟨33, 200, some 9, "movie001", some "epsd0001"⟩
      (by decide)).2.1 "epsd0001" rfl rfl

/-- Counterexample to Claim C1 as stated: for the identity
`(contentId = "movie001", episodeId = some "")` — a *non-null* episode
identifier — `loadProgress` returns the store's movie row, whose
`episode_id` is null rather than `some ""`: a non-null `episodeId` does not
always match only rows with exactly that `episode_id` (JavaScript
truthiness treats the empty string like null). -/
theorem C1_counterexample :
    loadProgress (some "user0001")
      [⟨"user0001", "movie001", none, 10, 5, some 100⟩]
      ⟨"movie001", none, some ""⟩
    = some ⟨10, 100, some 5, "movie001", none⟩
    ∧ (some "" : Option String) ≠ (none : Option String) := by
  exact ⟨by decide, by decide⟩

/-- Claim C2: when the truncated duration is positive and within
`NEAR_END_SECONDS` of the truncated position, `saveProgress` writes
nothing: it issues exactly one delete removing precisely the rows matching
the identity, and a subsequent `loadProgress` for the same identity
returns none. -/
theorem C2_near_end_delete (N : Nat) (uid : String) (now : Nat)
    (store : Store) (args : SaveProgressArgs)
    (hc : isUuidLike args.contentId = true)
    (hdur : 0 < toInt args.durationSeconds)
    (hnear : (toInt args.durationSeconds : Int) - (toInt args.positionSeconds : Int)
        ≤ (N : Int)) :
    saveProgress N (some uid) now store args
      = (store.filter (fun r => !matchesIdentity uid args.contentId args.episodeId r),
         [.delete])
    ∧ loadProgress (some uid) (saveProgress N (some uid) now store args).1
        ⟨args.contentId, args.seasonId, args.episodeId⟩ = none := by
  have hne : isNearEnd N (toInt args.positionSeconds) (toInt args.durationSeconds)
      = true := by
    unfold isNearEnd
    rw [if_neg (Nat.pos_iff_ne_zero.mp hdur)]
    exact decide_eq_true hnear
  have hsave : saveProgress N (some uid) now store args
      = (store.filter (fun r => !matchesIdentity uid args.contentId args.episodeId r),
         [.delete]) := by
    unfold saveProgress
    rw [hc]
    simp only [Bool.not_true, Bool.false_eq_true, if_false]
    rw [if_neg (Nat.pos_iff_ne_zero.mp hdur), if_pos hne]
    rfl
  refine ⟨hsave, ?_⟩
  rw [hsave]
  unfold loadProgress
  rw [hc]
  simp only [Bool.not_true, Bool.false_eq_true, if_false]
  unfold selectExactProgressRow
  rw [List.filter_filter]
  have hfe : (store.filter fun r =>
      matchesIdentity uid args.contentId args.episodeId r
        && !matchesIdentity uid args.contentId args.episodeId r) = [] := by
    simp
  rw [hfe]
  rfl

/-- Witness for C2: saving position 990 of duration 1000 with threshold 45
deletes the movie row and a reload finds nothing. -/
theorem C2_near_end_delete_witness :
    saveProgress 45 (some "user0001") 7
      [⟨"user0001", "movie001", none, 10, 5, some 100⟩]
      ⟨"movie001", none, none, .fin 990, .fin 1000⟩
    = ([], [.delete])
    ∧ loadProgress (some "user0001")
        (saveProgress 45 (some "user0001") 7
          [⟨"user0001", "movie001", none, 10, 5, some 100⟩]
          ⟨"movie001", none, none, .fin 990, .fin 1000⟩).1
        ⟨"movie001", none, none⟩ = none := by
  have h := C2_near_end_delete 45 "user0001" 7
    [⟨"user0001", "movie001", none, 10, 5, some 100⟩]
    ⟨"movie001", none, none, .fin 990, .fin 1000⟩
    (by decide) (by decide) (by decide)
  exact ⟨h.1.trans (by decide), h.2⟩

/-- Claim C4, amended: on restore a stored record is applied (the
controller seeks to its position) iff it is not judged near-end — its
stored duration is positive and within `NEAR_END_SECONDS` of its stored
position — AND its position is strictly positive AND strictly less than
`max 0 (duration − 3)` against the player's duration.  A stored position of
`dur − 2` is never restored.  A stored position of `dur − 10` with
`dur = 100` is restored only when its near-end check passes: with the
code's default threshold `45`, a record that stored duration `100` is NOT
restored, while a record whose stored duration is absent (`0`) IS
restored. -/
theorem C4_restore_threshold (N : Nat) (duration : ℚ)
    (row : AkiraProgressRowShape) :
    ((∃ p, restoreDecision N duration row = some p) ↔
      (¬(0 < row.duration_seconds
          ∧ (row.duration_seconds : Int) - (row.position_seconds : Int) ≤ (N : Int))
       ∧ 0 < row.position_seconds
       ∧ (row.position_seconds : ℚ) < max 0 (duration - 3)))
    ∧ (restoreDecision N duration row = some row.position_seconds
        ∨ restoreDecision N duration row = none)
    ∧ (∀ (d : Nat) (u : Option Nat) (m : String) (e : Option String),
        restoreDecision N (d : ℚ) ⟨d - 2, d, u, m, e⟩ = none)
    ∧ restoreDecision 45 100 ⟨90, 100, none, "m", none⟩ = none
    ∧ restoreDecision 45 100 ⟨90, 0, none, "m", none⟩ = some 90 := by
  have hmain : ∀ (N : Nat) (duration : ℚ) (row : AkiraProgressRowShape),
      ((∃ p, restoreDecision N duration row = some p) ↔
        (¬(0 < row.duration_seconds
            ∧ (row.duration_seconds : Int) - (row.position_seconds : Int) ≤ (N : Int))
         ∧ 0 < row.position_seconds
         ∧ (row.position_seconds : ℚ) < max 0 (duration - 3)))
      ∧ (restoreDecision N duration row = some row.position_seconds
          ∨ restoreDecision N duration row = none) := by
    intro N duration row
    unfold restoreDecision
    dsimp only
    by_cases h1 : 0 < row.duration_seconds
        ∧ (row.duration_seconds : Int) - (row.position_seconds : Int) ≤ (N : Int)
    · have hb : (decide (0 < row.duration_seconds)
          && decide ((row.duration_seconds : Int) - (row.position_seconds : Int)
              ≤ (N : Int))) = true := by
        simp [h1.1, h1.2]
      rw [hb]
      simp [h1]
    · have hb : (decide (0 < row.duration_seconds)
          && decide ((row.duration_seconds : Int) - (row.position_seconds : Int)
              ≤ (N : Int))) = false := by
        rcases Decidable.not_and_iff_or_not.mp h1 with h | h
        · simp [h]
        · simp [h]
      rw [hb]
      simp only [Bool.false_eq_true, if_false]
      by_cases h2 : 0 < row.position_seconds
          ∧ (row.position_seconds : ℚ) < max 0 (duration - 3)
      · rw [if_pos h2]
        refine ⟨⟨fun _ => ⟨h1, h2.1, h2.2⟩, fun _ => ⟨_, rfl⟩⟩, Or.inl rfl⟩
      · rw [if_neg h2]
        refine ⟨⟨?_, ?_⟩, Or.inr rfl⟩
        · rintro ⟨p, hp⟩
          cases hp
        · rintro ⟨_, hpos, hlt⟩
          exact absurd ⟨hpos, hlt⟩ h2
  refine ⟨(hmain N duration row).1, (hmain N duration row).2, ?_, ?_, ?_⟩
  · intro d u m e
    rcases Nat.lt_or_ge d 3 with hd | hd
    · have hpos : d - 2 = 0 := by omega
      have h := (hmain N (d : ℚ) ⟨d - 2, d, u, m, e⟩).1
      rcases (hmain N (d : ℚ) ⟨d - 2, d, u, m, e⟩).2 with hs | hn
      · exfalso
        have := h.mp ⟨_, hs⟩
        rw [hpos] at this
        exact absurd this.2.1 (lt_irrefl 0)
      · exact hn
    · have h := (hmain N (d : ℚ) ⟨d - 2, d, u, m, e⟩).1
      rcases (hmain N (d : ℚ) ⟨d - 2, d, u, m, e⟩).2 with hs | hn
      · exfalso
        obtain ⟨_, _, hlt⟩ := h.mp ⟨_, hs⟩
        have hcast : ((d - 2 : Nat) : ℚ) = (d : ℚ) - 2 := by
          have : (2 : Nat) ≤ d := by omega
          push_cast [this]
          ring
        rw [hcast] at hlt
        have hd3 : (3 : ℚ) ≤ (d : ℚ) := by exact_mod_cast hd
        have hmax : max 0 ((d : ℚ) - 3) = (d : ℚ) - 3 := by
          rw [max_eq_right]
          linarith
        rw [hmax] at hlt
        linarith
      · exact hn
  · have h := (hmain 45 100 ⟨90, 100, none, "m", none⟩).1
    rcases (hmain 45 100 ⟨90, 100, none, "m", none⟩).2 with hs | hn
    · exfalso
      have := (h.mp ⟨_, hs⟩).1
      exact this (by norm_num)
    · exact hn
  · rcases (hmain 45 100 ⟨90, 0, none, "m", none⟩).2 with hs | hn
    · exact hs
    · exfalso
      have h := (hmain 45 100 ⟨90, 0, none, "m", none⟩).1
      have hr : ¬∃ p, restoreDecision 45 100 ⟨90, 0, none, "m", none⟩ = some p := by
        rw [hn]
        rintro ⟨p, hp⟩
        cases hp
      refine hr (h.mpr ⟨?_, ?_, ?_⟩)
      · rintro ⟨hlt, _⟩
        exact absurd hlt (lt_irrefl 0)
      · norm_num
      · norm_num

/-- Counterexample to Claim C4 as stated: (i) a record with stored position
`0` and stored duration `1000` is not near-end and satisfies
`0 < 1000 − 3`, so the claim's iff demands a restore, yet the code does not
seek (it also requires a strictly positive position); (ii) the claim's
"dur − 10 with dur = 100 IS restored" example fails under the code's
default threshold `45` for a record that stored its duration: `100 − 90 =
10 ≤ 45` is judged near-end and the record is NOT restored. -/
theorem C4_counterexample :
    restoreDecision 45 1000 ⟨0, 1000, none, "m", none⟩ = none
    ∧ ¬(0 < (1000 : Nat) ∧ ((1000 : Int) - (0 : Int) ≤ (45 : Int)))
    ∧ ((0 : ℚ) < max 0 ((1000 : ℚ) - 3))
    ∧ restoreDecision 45 100 ⟨90, 100, none, "m", none⟩ = none := by
  refine ⟨?_, by norm_num, by norm_num, ?_⟩
  · norm_num [restoreDecision]
  · norm_num [restoreDecision]

/-- `movieFallback` only ever appends to the trace it is given. -/
theorem movieFallback_trace (env : List Outcome) (tr : List Act) :
    ∃ s, (movieFallback env tr).trace = tr ++ s := by
  unfold movieFallback
  rcases env with _ | ⟨o1, rest⟩
  · exact ⟨[.updWO], rfl⟩
  · rcases o1 with b1 | e1
    · cases b1
      · rcases rest with _ | ⟨o2, r2⟩
        · exact ⟨[.updWO, .insWO], rfl⟩
        · rcases o2 with b2 | e2
          · exact ⟨[.updWO, .insWO], rfl⟩
          · obtain ⟨m2, u2⟩ := e2
            cases u2
            · exact ⟨[.updWO, .insWO], rfl⟩
            · rcases r2 with _ | ⟨o3, r3⟩
              · exact ⟨[.updWO, .insWO, .updWO], rfl⟩
              · rcases o3 with b3 | e3
                · exact ⟨[.updWO, .insWO, .updWO], rfl⟩
                · exact ⟨[.updWO, .insWO, .updWO], rfl⟩
      · exact ⟨[.updWO], rfl⟩
    · exact ⟨[.updWO], rfl⟩

/-- `movieCatch` only ever appends to the trace it is given. -/
theorem movieCatch_trace (e : PgError) (env : List Outcome) (tr : List Act) :
    ∃ s, (movieCatch e env tr).trace = tr ++ s := by
  unfold movieCatch
  obtain ⟨m, u⟩ := e
  cases m
  · cases u
    · exact ⟨[], (List.append_nil tr).symm⟩
    · rcases env with _ | ⟨o, rest⟩
      · exact ⟨[.updW], rfl⟩
      · rcases o with b | e2
        · exact ⟨[.updW], rfl⟩
        · exact ⟨[.updW], rfl⟩
  · exact movieFallback_trace env tr

/-- Every episode save's first primitive call is the with-duration
upsert. -/
theorem epFlow_first_act (env : List Outcome) :
    (saveEpisodeProgressFlow env).trace.head? = some .upsW := by
  unfold saveEpisodeProgressFlow
  rcases env with _ | ⟨o, rest⟩
  · rfl
  · rcases o with b | e
    · rfl
    · obtain ⟨m, u⟩ := e
      cases m
      · rfl
      · rcases rest with _ | ⟨o2, r2⟩
        · rfl
        · rcases o2 with b2 | e2 <;> rfl

/-- Every movie save's first primitive call is the with-duration update. -/
theorem movieFlow_first_act (env : List Outcome) :
    (saveMovieProgressFlow env).trace.head? = some .updW := by
  unfold saveMovieProgressFlow
  rcases env with _ | ⟨o, rest⟩
  · rfl
  · rcases o with b | e
    · cases b
      · rcases rest with _ | ⟨o2, r2⟩
        · rfl
        · rcases o2 with b2 | e2
          · rfl
          · obtain ⟨s, hs⟩ := movieCatch_trace e2 r2 [.updW, .insW]
            show (movieCatch e2 r2 [.updW, .insW]).trace.head? = some .updW
            rw [hs]
            rfl
      · rfl
    · obtain ⟨s, hs⟩ := movieCatch_trace e rest [.updW]
      show (movieCatch e rest [.updW]).trace.head? = some .updW
      rw [hs]
      rfl

/-- An episode save whose with-duration upsert fails on the missing column
retries exactly the same upsert without the column. -/
theorem epFlow_missing_retry (e : PgError) (env : List Outcome)
    (h : e.missingDurationColumn = true) :
    (saveEpisodeProgressFlow (.err e :: env)).trace = [.upsW, .upsWO] := by
  obtain ⟨m, u⟩ := e
  cases m
  · cases h
  · unfold saveEpisodeProgressFlow
    rcases env with _ | ⟨o2, r2⟩
    · rfl
    · rcases o2 with b2 | e2 <;> rfl

/-- Counterexample to Claim C5 as stated: the first save fails on the
missing duration column and is retried without it, yet the very next save
(the engine is stateless across calls: `TRY_DURATION_COLUMN` is a
compile-time constant) again issues the with-duration upsert as its first
attempt — the engine never "remembers" to skip the column. -/
theorem C5_counterexample :
    (saveEpisodeProgressFlow [.err ⟨true, false⟩, .ok true]).trace
      = [.upsW, .upsWO]
    ∧ (saveEpisodeProgressFlow [.ok true]).trace.head? = some .upsW
    ∧ TRY_DURATION_COLUMN = true := by
  exact ⟨rfl, rfl, rfl⟩

/-- Claim C5, amended: after a write fails because the backing schema lacks
the optional duration column, the engine retries that same write without
the column; but it does NOT remember this for the process lifetime:
`TRY_DURATION_COLUMN` is a compile-time constant, so every save — episode
upsert or movie update — issues a write including the duration column as
its first attempt. -/
theorem C5_no_duration_memory (e : PgError) (env : List Outcome)
    (h : e.missingDurationColumn = true) :
    (saveEpisodeProgressFlow (.err e :: env)).trace = [.upsW, .upsWO]
    ∧ (∀ env2, (saveEpisodeProgressFlow env2).trace.head? = some .upsW)
    ∧ (∀ env2, (saveMovieProgressFlow env2).trace.head? = some .updW) := by
  exact ⟨epFlow_missing_retry e env h, epFlow_first_act, movieFlow_first_act⟩

/-- Witness for C5 (amended) at a concrete failing error. -/
theorem C5_no_duration_memory_witness :
    (saveEpisodeProgressFlow [.err ⟨true, true⟩]).trace = [.upsW, .upsWO] :=
  (C5_no_duration_memory ⟨true, true⟩ [] rfl).1

/-- Filtering the store never increases the number of movie rows. -/
theorem countNullRows_filter_le (u m : String) (p : WatchProgressRow → Bool)
    (store : Store) :
    countNullRows u m (store.filter p) ≤ countNullRows u m store := by
  unfold countNullRows
  induction store with
  | nil => simp
  | cons r t ih =>
    by_cases hp : p r = true
    · by_cases hm : matchesIdentity u m none r = true
      · simpa [List.filter_cons, hp, hm] using Nat.succ_le_succ ih
      · simpa [List.filter_cons, hp, hm] using ih
    · by_cases hm : matchesIdentity u m none r = true
      · simpa [List.filter_cons, hp, hm] using Nat.le_succ_of_le ih
      · simpa [List.filter_cons, hp, hm] using ih

/-- A row-wise transformation that preserves the identity fields preserves
the number of movie rows. -/
theorem countNullRows_map_eq (u m : String) (f : WatchProgressRow → WatchProgressRow)
    (store : Store)
    (hf : ∀ r, matchesIdentity u m none (f r) = matchesIdentity u m none r) :
    countNullRows u m (store.map f) = countNullRows u m store := by
  unfold countNullRows
  induction store with
  | nil => rfl
  | cons r t ih =>
    simp only [List.map_cons, List.filter_cons, hf r]
    by_cases hm : matchesIdentity u m none r = true
    · simp only [hm, if_true, List.length_cons, ih]
    · simp only [hm, Bool.false_eq_true, if_false, ih]

/-- Movie-row count distributes over concatenation of stores. -/
theorem countNullRows_append (u m : String) (s1 s2 : Store) :
    countNullRows u m (s1 ++ s2) = countNullRows u m s1 + countNullRows u m s2 := by
  unfold countNullRows
  rw [List.filter_append, List.length_append]

/-- When no row matches the movie identity, its movie-row count is zero. -/
theorem countNullRows_eq_zero_of_any_false (uid mid : String) (store : Store)
    (h : store.any (matchesIdentity uid mid none) = false) :
    countNullRows uid mid store = 0 := by
  unfold countNullRows
  rw [List.length_eq_zero, List.filter_eq_nil_iff]
  intro a ha
  rw [List.any_eq_false] at h
  exact fun hc => h a ha hc

/-- `updateMovieRow` only rewrites non-key columns: every movie-row count is
unchanged. -/
theorem countNull_updateMovieRow (uid mid u m : String) (pos dur : Nat)
    (wd : Bool) (now : Nat) (store : Store) :
    countNullRows u m (updateMovieRow uid mid pos dur wd now store).1
      = countNullRows u m store := by
  unfold updateMovieRow
  apply countNullRows_map_eq
  intro r
  by_cases hm : matchesIdentity uid mid none r = true
  · rw [if_pos hm]
    rfl
  · rw [if_neg hm]

/-- The matched flag of `updateMovieRow` is the store's `any` over the
movie identity. -/
theorem updateMovieRow_snd (uid mid : String) (pos dur : Nat) (wd : Bool)
    (now : Nat) (store : Store) :
    (updateMovieRow uid mid pos dur wd now store).2
      = store.any (matchesIdentity uid mid none) := rfl

/-- Inserting a fresh movie row adds one to its own `(user, content)` count
and nothing to any other. -/
theorem countNull_insertMovieRow (uid mid u m : String) (pos dur : Nat)
    (wd : Bool) (now : Nat) (store : Store) :
    countNullRows u m (insertMovieRow uid mid pos dur wd now store)
      = countNullRows u m store + (if uid = u ∧ mid = m then 1 else 0) := by
  unfold insertMovieRow
  rw [countNullRows_append]
  congr 1
  by_cases h : uid = u ∧ mid = m
  · rw [if_pos h]
    unfold countNullRows matchesIdentity
    simp [truthy, h.1, h.2]
  · rw [if_neg h]
    unfold countNullRows matchesIdentity
    rcases Decidable.not_and_iff_or_not.mp h with h1 | h1
    · simp [truthy, h1]
    · simp [truthy, h1]

/-- `saveMovieProgress` (the update-if-exists-else-insert path) preserves
the at-most-one-movie-row invariant for every `(user, contentId)` pair. -/
theorem countNull_saveMovieProgress (uid mid u m : String) (pos dur now : Nat)
    (store : Store) (hinv : countNullRows u m store ≤ 1) :
    countNullRows u m (saveMovieProgress uid mid pos dur now store).1 ≤ 1 := by
  unfold saveMovieProgress
  rw [show TRY_DURATION_COLUMN = true from rfl]
  simp only [if_true]
  by_cases hany : store.any (matchesIdentity uid mid none) = true
  · simp only [updateMovieRow_snd, hany, if_true]
    rw [countNull_updateMovieRow]
    exact hinv
  · have hany' : store.any (matchesIdentity uid mid none) = false :=
      Bool.not_eq_true _ ▸ hany
    simp only [updateMovieRow_snd, hany', Bool.false_eq_true, if_false]
    rw [countNull_insertMovieRow, countNull_updateMovieRow]
    by_cases h : uid = u ∧ mid = m
    · rw [if_pos h]
      have h0 : countNullRows u m store = 0 := by
        rw [← h.1, ← h.2]
        exact countNullRows_eq_zero_of_any_false uid mid store hany'
      omega
    · rw [if_neg h]
      omega

/-- One `saveProgress` call with a null `episodeId` preserves the
at-most-one-movie-row invariant, for every `(user, contentId)` pair. -/
theorem countNull_saveProgress_step (N : Nat) (user : Option String) (now : Nat)
    (store : Store) (args : SaveProgressArgs) (u m : String)
    (he : args.episodeId = none)
    (hinv : countNullRows u m store ≤ 1) :
    countNullRows u m (saveProgress N user now store args).1 ≤ 1 := by
  unfold saveProgress
  by_cases hc : isUuidLike args.contentId
  · simp only [hc, Bool.not_true, Bool.false_eq_true, if_false]
    cases user with
    | none => exact hinv
    | some uid =>
      dsimp only
      by_cases hdur : toInt args.durationSeconds = 0
      · simp only [hdur, if_true]
        exact hinv
      · rw [if_neg hdur]
        by_cases hne : isNearEnd N (toInt args.positionSeconds) (toInt args.durationSeconds)
            = true
        · rw [if_pos hne]
          exact le_trans (countNullRows_filter_le u m _ store) hinv
        · rw [if_neg hne]
          rw [he]
          exact countNull_saveMovieProgress uid args.contentId u m _ _ now store hinv
  · simp only [hc, Bool.not_false, if_true]
    exact hinv

/-- Claim C3: for every user and contentId, any sequence of movie saves
(`episodeId` null) via `saveProgress` leaves at most one row with null
`episode_id` for that `(user, contentId)` in the store; the movie path is
update-if-exists-else-insert (an update that matched suppresses the
insert), and an insert failing with a uniqueness/duplicate-key violation is
retried exactly once as an update — success when that retry succeeds, and
the original error rethrown (giving up) when the retry fails too. -/
theorem C3_movie_single_row (N : Nat)
    (u m : String) (store : Store)
    (calls : List (Option String × Nat × SaveProgressArgs))
    (hcalls : ∀ c ∈ calls, c.2.2.episodeId = none)
    (hinv : countNullRows u m store ≤ 1) :
    countNullRows u m
      (calls.foldl (fun s c => (saveProgress N c.1 c.2.1 s c.2.2).1) store) ≤ 1
    ∧ (∀ env, saveMovieProgressFlow (.ok true :: env) = ⟨[.updW], none⟩)
    ∧ (∀ env (b : Bool),
        saveMovieProgressFlow (.ok false :: .ok b :: env) = ⟨[.updW, .insW], none⟩)
    ∧ (∀ (e : PgError) env (b : Bool), e.missingDurationColumn = false →
        e.uniqueViolation = true →
        saveMovieProgressFlow (.ok false :: .err e :: .ok b :: env)
          = ⟨[.updW, .insW, .updW], none⟩)
    ∧ (∀ (e e2 : PgError) env, e.missingDurationColumn = false →
        e.uniqueViolation = true →
        saveMovieProgressFlow (.ok false :: .err e :: .err e2 :: env)
          = ⟨[.updW, .insW, .updW], some e⟩) := by
  refine ⟨?_, fun env => rfl, fun env b => rfl, ?_, ?_⟩
  · induction calls generalizing store with
    | nil => simpa using hinv
    | cons c t ih =>
      simp only [List.foldl_cons]
      exact ih _ (fun c2 hc2 => hcalls c2 (List.mem_cons_of_mem c hc2))
        (countNull_saveProgress_step N c.1 c.2.1 store c.2.2 u m
          (hcalls c (List.mem_cons_self c t)) hinv)
  · intro e env b h1 h2
    obtain ⟨em, eu⟩ := e
    cases em
    · cases eu
      · cases h2
      · rfl
    · cases h1
  · intro e e2 env h1 h2
    obtain ⟨em, eu⟩ := e
    cases em
    · cases eu
      · cases h2
      · rfl
    · cases h1

/-- Witness for C3: a concrete two-save sequence on an empty store leaves
one movie row. -/
theorem C3_movie_single_row_witness :
    countNullRows "user0001" "movie001"
      ([(some "user0001", 3,
          (⟨"movie001", none, none, .fin 100, .fin 1000⟩ : SaveProgressArgs)),
        (some "user0001", 9,
          (⟨"movie001", none, none, .fin 200, .fin 1000⟩ : SaveProgressArgs))].foldl
        (fun s c => (saveProgress 45 c.1 c.2.1 s c.2.2).1) []) ≤ 1 :=
  (C3_movie_single_row 45 "user0001" "movie001" []
    [(some "user0001", 3, ⟨"movie001", none, none, .fin 100, .fin 1000⟩),
     (some "user0001", 9, ⟨"movie001", none, none, .fin 200, .fin 1000⟩)]
    (by intro c hc; rcases List.mem_cons.mp hc with rfl | hc
        · rfl
        · rcases List.mem_cons.mp hc with rfl | hc
          · rfl
          · exact absurd hc (List.not_mem_nil c))
    (by simp [countNullRows])).1

/-- `episodeCompare` answers `eq` exactly on equal sort keys
(season-with-default-1, episode-with-default-0, id). -/
theorem episodeCompare_eq_iff (a b : EpisodeItem) :
    episodeCompare a b = .eq ↔
      (a.seasonNumber.getD 1 = b.seasonNumber.getD 1
       ∧ a.episodeNumber.getD 0 = b.episodeNumber.getD 0
       ∧ a.id = b.id) := by
  unfold episodeCompare
  dsimp only
  by_cases h1 : a.seasonNumber.getD 1 ≠ b.seasonNumber.getD 1
  · rw [if_pos h1]
    by_cases h2 : a.seasonNumber.getD 1 < b.seasonNumber.getD 1
    · rw [if_pos h2]
      simp [h1]
    · rw [if_neg h2]
      simp [h1]
  · rw [if_neg h1]
    push_neg at h1
    by_cases h2 : a.episodeNumber.getD 0 ≠ b.episodeNumber.getD 0
    · rw [if_pos h2]
      by_cases h3 : a.episodeNumber.getD 0 < b.episodeNumber.getD 0
      · rw [if_pos h3]
        simp [h2]
      · rw [if_neg h3]
        simp [h2]
    · rw [if_neg h2]
      push_neg at h2
      rw [compare_eq_iff_eq]
      simp [h1, h2]

/-- `episodeCompare` answers `lt` exactly on the lexicographic strict order
of the sort keys. -/
theorem episodeCompare_lt_iff (a b : EpisodeItem) :
    episodeCompare a b = .lt ↔
      (a.seasonNumber.getD 1 < b.seasonNumber.getD 1
       ∨ (a.seasonNumber.getD 1 = b.seasonNumber.getD 1
          ∧ (a.episodeNumber.getD 0 < b.episodeNumber.getD 0
             ∨ (a.episodeNumber.getD 0 = b.episodeNumber.getD 0
                ∧ a.id < b.id)))) := by
  unfold episodeCompare
  dsimp only
  by_cases h1 : a.seasonNumber.getD 1 ≠ b.seasonNumber.getD 1
  · rw [if_pos h1]
    by_cases h2 : a.seasonNumber.getD 1 < b.seasonNumber.getD 1
    · rw [if_pos h2]
      simp [h2]
    · rw [if_neg h2]
      simp only [reduceCtorEq, false_iff, not_or, not_and]
      exact ⟨h2, fun he => absurd he h1⟩
  · rw [if_neg h1]
    push_neg at h1
    by_cases h2 : a.episodeNumber.getD 0 ≠ b.episodeNumber.getD 0
    · rw [if_pos h2]
      by_cases h3 : a.episodeNumber.getD 0 < b.episodeNumber.getD 0
      · rw [if_pos h3]
        simp [h1, h3]
      · rw [if_neg h3]
        simp only [reduceCtorEq, false_iff, not_or, not_and]
        refine ⟨fun hlt => absurd h1 (ne_of_lt hlt), fun _ => ⟨h3, fun he => absurd he h2⟩⟩
    · rw [if_neg h2]
      push_neg at h2
      rw [compare_lt_iff_lt]
      constructor
      · intro hid
        exact Or.inr ⟨h1, Or.inr ⟨h2, hid⟩⟩
      · rintro (hlt | ⟨_, hlt | ⟨_, hid⟩⟩)
        · exact absurd h1 (ne_of_lt hlt)
        · exact absurd h2 (ne_of_lt hlt)
        · exact hid

/-- `episodeCompare` answers `gt` exactly on the reversed lexicographic
strict order of the sort keys. -/
theorem episodeCompare_gt_iff (a b : EpisodeItem) :
    episodeCompare a b = .gt ↔
      (b.seasonNumber.getD 1 < a.seasonNumber.getD 1
       ∨ (b.seasonNumber.getD 1 = a.seasonNumber.getD 1
          ∧ (b.episodeNumber.getD 0 < a.episodeNumber.getD 0
             ∨ (b.episodeNumber.getD 0 = a.episodeNumber.getD 0
                ∧ b.id < a.id)))) := by
  unfold episodeCompare
  dsimp only
  by_cases h1 : a.seasonNumber.getD 1 ≠ b.seasonNumber.getD 1
  · rw [if_pos h1]
    by_cases h2 : a.seasonNumber.getD 1 < b.seasonNumber.getD 1
    · rw [if_pos h2]
      simp only [reduceCtorEq, false_iff, not_or, not_and]
      exact ⟨fun hlt => absurd hlt (lt_asymm h2), fun he => absurd he.symm h1⟩
    · rw [if_neg h2]
      have hlt : b.seasonNumber.getD 1 < a.seasonNumber.getD 1 :=
        lt_of_le_of_ne (not_lt.mp h2) (Ne.symm h1)
      simp [hlt]
  · rw [if_neg h1]
    push_neg at h1
    by_cases h2 : a.episodeNumber.getD 0 ≠ b.episodeNumber.getD 0
    · rw [if_pos h2]
      by_cases h3 : a.episodeNumber.getD 0 < b.episodeNumber.getD 0
      · rw [if_pos h3]
        simp only [reduceCtorEq, false_iff, not_or, not_and]
        refine ⟨fun hlt => absurd h1.symm (ne_of_lt hlt), fun _ => ?_⟩
        exact ⟨fun hlt => absurd hlt (lt_asymm h3), fun he => absurd he.symm h2⟩
      · rw [if_neg h3]
        have hlt : b.episodeNumber.getD 0 < a.episodeNumber.getD 0 :=
          lt_of_le_of_ne (not_lt.mp h3) (Ne.symm h2)
        simp [h1, hlt]
    · rw [if_neg h2]
      push_neg at h2
      rw [compare_gt_iff_gt]
      constructor
      · intro hid
        exact Or.inr ⟨h1.symm, Or.inr ⟨h2.symm, hid⟩⟩
      · rintro (hlt | ⟨_, hlt | ⟨_, hid⟩⟩)
        · exact absurd h1.symm (ne_of_lt hlt)
        · exact absurd h2.symm (ne_of_lt hlt)
        · exact hid

/-- The navigator's order is total. -/
theorem episodeLe_total (a b : EpisodeItem) : episodeLe a b ∨ episodeLe b a := by
  unfold episodeLe
  by_cases h : episodeCompare a b = .gt
  · right
    rw [episodeCompare_gt_iff] at h
    have hlt := (episodeCompare_lt_iff b a).mpr h
    rw [hlt]
    simp
  · left
    exact h

/-- The navigator's order is transitive. -/
theorem episodeLe_trans (a b c : EpisodeItem)
    (hab : episodeLe a b) (hbc : episodeLe b c) : episodeLe a c := by
  unfold episodeLe at *
  intro hac
  rw [episodeCompare_gt_iff] at hac
  have hab2 : ¬(b.seasonNumber.getD 1 < a.seasonNumber.getD 1
      ∨ (b.seasonNumber.getD 1 = a.seasonNumber.getD 1
         ∧ (b.episodeNumber.getD 0 < a.episodeNumber.getD 0
            ∨ (b.episodeNumber.getD 0 = a.episodeNumber.getD 0
               ∧ b.id < a.id)))) :=
    fun h => hab ((episodeCompare_gt_iff a b).mpr h)
  have hbc2 : ¬(c.seasonNumber.getD 1 < b.seasonNumber.getD 1
      ∨ (c.seasonNumber.getD 1 = b.seasonNumber.getD 1
         ∧ (c.episodeNumber.getD 0 < b.episodeNumber.getD 0
            ∨ (c.episodeNumber.getD 0 = b.episodeNumber.getD 0
               ∧ c.id < b.id)))) :=
    fun h => hbc ((episodeCompare_gt_iff b c).mpr h)
  simp only [not_or, not_and, not_lt] at hab2 hbc2
  obtain ⟨hs1, hrest1⟩ := hab2
  obtain ⟨hs2, hrest2⟩ := hbc2
  rcases hac with hs | ⟨hseq, hrest⟩
  · omega
  · have hsba : b.seasonNumber.getD 1 = a.seasonNumber.getD 1 := by omega
    have hscb : c.seasonNumber.getD 1 = b.seasonNumber.getD 1 := by omega
    have he1 := hrest1 hsba
    have he2 := hrest2 hscb
    simp only [not_or, not_and, not_lt] at he1 he2
    obtain ⟨he1a, he1b⟩ := he1
    obtain ⟨he2a, he2b⟩ := he2
    rcases hrest with he | ⟨heeq, hid⟩
    · omega
    · have heba : b.episodeNumber.getD 0 = a.episodeNumber.getD 0 := by omega
      have hecb : c.episodeNumber.getD 0 = b.episodeNumber.getD 0 := by omega
      have hba : a.id ≤ b.id := he1b heba
      have hcb : b.id ≤ c.id := he2b hecb
      exact absurd hid (not_lt.mpr (le_trans hba hcb))

/-- A falsy current episode id — null/undefined or the empty string — means
no current unit and hence no next unit, whatever the playlist. -/
theorem nextEpisode_falsy (ordered : List EpisodeItem) :
    nextEpisodeInPlaylist ordered none = none
    ∧ nextEpisodeInPlaylist ordered (some "") = none :=
  ⟨rfl, rfl⟩

/-- For a truthy (non-empty) current id, `nextEpisodeInPlaylist` returns
exactly the entry at the position after the current episode's index in the
given order (none past the end or when the id is not found). -/
theorem nextEpisodeInPlaylist_eq (ordered : List EpisodeItem) (eid : String)
    (hne : eid ≠ "") :
    nextEpisodeInPlaylist ordered (some eid)
      = (match ordered.findIdx? (fun ep => ep.id == eid) with
         | some i => ordered.get? (i + 1)
         | none => none) := by
  have htr : truthy (some eid) = true := by
    have hie : eid.isEmpty = false := by
      rw [Bool.eq_false_iff]
      intro he
      exact hne ((String.isEmpty_iff eid).mp he)
    simp [truthy, hie]
  unfold nextEpisodeInPlaylist currentEpisodeIndexInPlaylist
  rw [htr]
  simp only [Bool.not_true, Bool.false_eq_true, if_false]
  cases h : ordered.findIdx? (fun ep => ep.id == eid) with
  | none => simp [h]
  | some i =>
    simp only [h]
    rw [if_neg (by omega : ¬((i : Int) < 0))]
    have ht : ((i : Int) + 1).toNat = i + 1 := by omega
    rw [ht]

/-- When the current id is absent from the playlist, there is no next
unit. -/
theorem nextEpisode_absent (l : List EpisodeItem) (eid : String)
    (h : ∀ ep ∈ l, ep.id ≠ eid) :
    nextEpisodeInPlaylist (orderedEpisodes l) (some eid) = none := by
  by_cases hne : eid = ""
  · subst hne
    exact (nextEpisode_falsy (orderedEpisodes l)).2
  · rw [nextEpisodeInPlaylist_eq _ _ hne]
    have hfind : (orderedEpisodes l).findIdx? (fun ep => ep.id == eid) = none := by
      rw [List.findIdx?_eq_none_iff]
      intro ep hep
      have hmem : ep ∈ l := by
        unfold orderedEpisodes at hep
        exact (List.mem_insertionSort _).mp hep
      simpa using h ep hmem
    rw [hfind]

/-- Counterexample to Claim C6 as stated: the playlist
`[("", S1, E1), ("e2", S1, E2)]` contains a unit whose identifier is the
empty string; it is present in the order (at index 0) and is not the last
entry (the entry following it is `("e2", S1, E2)`), yet for the current
identifier `""` the code yields no next unit — `if (!episodeId) return -1`
treats the empty string like "no current episode" (JavaScript
truthiness). -/
theorem C6_counterexample :
    nextEpisodeInPlaylist
      (orderedEpisodes [⟨"", some 1, some 1⟩, ⟨"e2", some 1, some 2⟩])
      (some "") = none
    ∧ (⟨"", some 1, some 1⟩ : EpisodeItem)
        ∈ orderedEpisodes [⟨"", some 1, some 1⟩, ⟨"e2", some 1, some 2⟩]
    ∧ (orderedEpisodes [⟨"", some 1, some 1⟩, ⟨"e2", some 1, some 2⟩]).findIdx?
        (fun ep => ep.id == "") = some 0
    ∧ (orderedEpisodes [⟨"", some 1, some 1⟩, ⟨"e2", some 1, some 2⟩]).get? 1
        = some ⟨"e2", some 1, some 2⟩ := by
  exact ⟨rfl, by decide, by decide, by decide⟩

/-- Claim C6, amended: the Navigator orders every set of playback units
totally by season number (missing treated as 1), then episode number
(missing treated as 0), then identifier as a deterministic tie-break
(`episodeCompare` decides `eq`/`lt` exactly by the lexicographic key order,
and `orderedEpisodes` is a sorted permutation of its input); for a
*non-empty* current identifier, "next unit" is the entry immediately
following the current unit in this order and is none when the current unit
is absent from the set or is the last entry; a falsy current identifier
(null or the empty string) yields no next unit even when a unit carrying
the empty identifier is present and not last.  In particular, for units
`{(S1,E2),(S1,E1),(S2,E1)}` the order is `(S1,E1),(S1,E2),(S2,E1)`,
`next (S1,E1) = (S1,E2)`, and `next (S2,E1) = none`. -/
theorem C6_navigator :
    (∀ a b : EpisodeItem, episodeCompare a b = .eq ↔
        (a.seasonNumber.getD 1 = b.seasonNumber.getD 1
         ∧ a.episodeNumber.getD 0 = b.episodeNumber.getD 0
         ∧ a.id = b.id))
    ∧ (∀ a b : EpisodeItem, episodeCompare a b = .lt ↔
        (a.seasonNumber.getD 1 < b.seasonNumber.getD 1
         ∨ (a.seasonNumber.getD 1 = b.seasonNumber.getD 1
            ∧ (a.episodeNumber.getD 0 < b.episodeNumber.getD 0
               ∨ (a.episodeNumber.getD 0 = b.episodeNumber.getD 0
                  ∧ a.id < b.id)))))
    ∧ (∀ l : List EpisodeItem,
        (orderedEpisodes l).Sorted episodeLe ∧ (orderedEpisodes l).Perm l)
    ∧ (∀ (ordered : List EpisodeItem) (eid : String), eid ≠ "" →
        nextEpisodeInPlaylist ordered (some eid)
          = (match ordered.findIdx? (fun ep => ep.id == eid) with
             | some i => ordered.get? (i + 1)
             | none => none))
    ∧ (∀ ordered : List EpisodeItem,
        nextEpisodeInPlaylist ordered none = none
        ∧ nextEpisodeInPlaylist ordered (some "") = none)
    ∧ (∀ (l : List EpisodeItem) (eid : String),
        (∀ ep ∈ l, ep.id ≠ eid) →
        nextEpisodeInPlaylist (orderedEpisodes l) (some eid) = none)
    ∧ orderedEpisodes [⟨"e12", some 1, some 2⟩, ⟨"e11", some 1, some 1⟩,
        ⟨"e21", some 2, some 1⟩]
        = [⟨"e11", some 1, some 1⟩, ⟨"e12", some 1, some 2⟩,
           ⟨"e21", some 2, some 1⟩]
    ∧ nextEpisodeInPlaylist
        (orderedEpisodes [⟨"e12", some 1, some 2⟩, ⟨"e11", some 1, some 1⟩,
          ⟨"e21", some 2, some 1⟩]) (some "e11")
        = some ⟨"e12", some 1, some 2⟩
    ∧ nextEpisodeInPlaylist
        (orderedEpisodes [⟨"e12", some 1, some 2⟩, ⟨"e11", some 1, some 1⟩,
          ⟨"e21", some 2, some 1⟩]) (some "e21")
        = none := by
  refine ⟨episodeCompare_eq_iff, episodeCompare_lt_iff, ?_,
    nextEpisodeInPlaylist_eq, nextEpisode_falsy, nextEpisode_absent,
    by decide, by decide, by decide⟩
  intro l
  haveI : IsTotal EpisodeItem episodeLe := ⟨episodeLe_total⟩
  haveI : IsTrans EpisodeItem episodeLe := ⟨episodeLe_trans⟩
  exact ⟨List.sorted_insertionSort episodeLe l, List.perm_insertionSort episodeLe l⟩

/-- Witness for C6 (amended) at a concrete absent id, discharging the
hypothesis. -/
theorem C6_navigator_witness :
    nextEpisodeInPlaylist
      (orderedEpisodes [⟨"e11", some 1, some 1⟩, ⟨"e12", some 1, some 2⟩])
      (some "zz") = none := by
  refine C6_navigator.2.2.2.2.2.1 [⟨"e11", some 1, some 1⟩, ⟨"e12", some 1, some 2⟩]
    "zz" ?_
  intro ep hep
  rcases List.mem_cons.mp hep with rfl | hep
  · decide
  · rcases List.mem_cons.mp hep with rfl | hep
    · decide
    · exact absurd hep (List.not_mem_nil ep)

end Akira
